import Mathlib

/-!
Verification of `alibi/confidence/model_linearity.py`.

The module computes a local linearity score of a black-box model around a
batch of instances.  We embed the module shallowly: numpy arrays of shape
`(N,) + input_shape` become lists of flattened feature vectors (`List Vec`)
and, where the rank of a tensor matters, a pair of a shape and the C-order
flat data (`NDArray`).  Machine floats become exact rationals.  `np.random`
draws become explicit arguments constrained by validity predicates, so a
theorem about the sampler quantifies over every draw the code could make.
The external `predict_fn` and, for the classifier variant, the transcendental
`np.log` are opaque parameters.  Python `assert`/`raise` becomes
`Except String`.
-/

namespace Alibi

/-- A flattened feature (or output) vector with exact rational entries. -/
abbrev Vec := List ℚ

/-- `np.mean` of a flat list of values (`sum / count`; for the empty list the
rational division by zero yields `0`). -/
def mean (l : List ℚ) : ℚ := l.sum / l.length

/-- Scalar multiple of a vector. -/
def scale (c : ℚ) (v : Vec) : Vec := v.map (fun t => c * t)

/-- Elementwise sum of two vectors. -/
def vecAdd (u v : Vec) : Vec := List.zipWith (fun a b => a + b) u v

/-- The two-term superposition `a0 * u + a1 * v` that the code forms with
`np.matmul(np.array([u_stack, v]).T, alphas).T` (elementwise over the
feature axes). -/
def superpose (a0 a1 : ℚ) (u v : Vec) : Vec := vecAdd (scale a0 u) (scale a1 v)

/-- Elementwise squared differences `(u - v) ** 2`. -/
def sqDiffs (u v : Vec) : List ℚ := List.zipWith (fun a b => (a - b) ^ 2) u v

/-- Squared Euclidean distance between two flattened vectors (the ordering it
induces is the ordering by Euclidean distance). -/
def sqDist (u v : Vec) : ℚ := (sqDiffs u v).sum

/-- Dot product (used to state what an affine `predict_fn` is). -/
def dot (w v : Vec) : ℚ := (List.zipWith (fun a b => a * b) w v).sum

/-- The classifier transform `np.log(p + 1e-10)`: `lg` is the opaque
logarithm, the additive floor is exact. -/
def logEps (lg : ℚ → ℚ) (y : ℚ) : ℚ := lg (y + 1 / 10 ^ 10)

/-- Embeds `_calculate_linearity_regression`.  `predict` is the batched
`predict_fn`; an output row is the flat data of one prediction, and the
`reshape(ss + (1,))` calls of the source, which flatten in C order and
regroup, are embedded by flattening the batched outputs (`.flatten`) and
indexing flat position `n * K + k` (the regressor contract is one scalar
output per input row).  Returns the per-instance scores together with the
list of batches passed to `predict_fn`, in call order: the code calls it on
the flattened sample batch, on `x`, and on the flattened superposition
batch. -/
def _calculate_linearity_regression (predict : List Vec → List (List ℚ))
    (x : List Vec) (X_samples : List (List Vec)) (a0 a1 : ℚ) :
    List ℚ × List (List Vec) :=
  let N := x.length
  let K := (X_samples.headD []).length
  let batchSamples := X_samples.flatten
  let outs := (predict batchSamples).flatten
  let x_out := (predict x).flatten
  let summ := (List.range N).map (fun n => (List.range K).map (fun k =>
    superpose a0 a1 (x.getD n []) ((X_samples.getD n []).getD k [])))
  let batchSumm := summ.flatten
  let out_sum := (predict batchSumm).flatten
  let score := (List.range N).map (fun n => mean ((List.range K).map (fun k =>
    (out_sum.getD (n * K + k) 0 -
      (a0 * x_out.getD n 0 + a1 * outs.getD (n * K + k) 0)) ^ 2)))
  (score, [batchSamples, x, batchSumm])

/-- Embeds `_calculate_linearity_measure` (the classifier variant): raw
predictions pass through `np.log(. + 1e-10)` channelwise, the superposition
of outputs is formed channelwise with `alphas`, and the score of instance `n`
is the `np.mean` of the squared discrepancies over the sample and channel
axes.  Returns the scores together with the batches passed to `predict_fn`,
in call order (sample batch, `x`, superposition batch). -/
def _calculate_linearity_measure (lg : ℚ → ℚ) (predict : List Vec → List (List ℚ))
    (x : List Vec) (X_samples : List (List Vec)) (a0 a1 : ℚ) :
    List ℚ × List (List Vec) :=
  let N := x.length
  let K := (X_samples.headD []).length
  let batchSamples := X_samples.flatten
  let outs := (predict batchSamples).map (fun row => row.map (logEps lg))
  let x_out := (predict x).map (fun row => row.map (logEps lg))
  let summ := (List.range N).map (fun n => (List.range K).map (fun k =>
    superpose a0 a1 (x.getD n []) ((X_samples.getD n []).getD k [])))
  let batchSumm := summ.flatten
  let out_sum := (predict batchSumm).map (fun row => row.map (logEps lg))
  let score := (List.range N).map (fun n => mean (((List.range K).map (fun k =>
    sqDiffs (out_sum.getD (n * K + k) [])
      (superpose a0 a1 (x_out.getD n []) (outs.getD (n * K + k) [])))).flatten))
  (score, [batchSamples, x, batchSumm])

/-- Models `sklearn.neighbors.NearestNeighbors(...).kneighbors` (an external
collaborator of `_sample_knn`): the indices of the `k` training rows nearest
to the query by Euclidean distance, in non-decreasing order of distance,
ties resolved deterministically (here by index, via a stable sort). -/
def nnRel (X : List Vec) (q : Vec) (i j : ℕ) : Bool :=
  decide (sqDist (X.getD i []) q ≤ sqDist (X.getD j []) q)

/-- The sorted index list underlying a `kneighbors` query: every training row
index, in non-decreasing order of squared distance to the query (stable, so
distance ties keep index order). -/
def nnSorted (X : List Vec) (q : Vec) : List ℕ :=
  (List.range X.length).mergeSort (nnRel X q)

/-- The `k` nearest indices: the first `k` entries of the sorted index list. -/
def kneighbors (X : List Vec) (q : Vec) (k : ℕ) : List ℕ :=
  (nnSorted X q).take k

/-- Embeds `_sample_knn` on flattened data: for each instance row the code
stacks `X_train.shape[0]` copies of the row, queries the index, and keeps
row `0` of the result, which is the query of the single row; it then gathers
the selected rows of the FLATTENED training matrix (`X_train` was rebound to
`X_train.reshape(X_train.shape[0], -1)`). -/
def _sample_knn (x : List Vec) (X_train : List Vec) (nb_samples : ℕ) :
    List (List Vec) :=
  x.map (fun xi => (kneighbors X_train xi nb_samples).map
    (fun i => X_train.getD i []))

/-- A numpy array: its shape and its C-order flat data. -/
structure NDArray where
  shape : List ℕ
  data : List ℚ
deriving Repr, DecidableEq

/-- `a.reshape(m, -1)` read back as a list of `m` rows of length `d`
(`d` columns taken in C order). -/
def reshapeRows (m d : ℕ) (data : List ℚ) : List Vec :=
  (List.range m).map (fun i => (data.drop (i * d)).take d)

/-- The rows of an array of shape `(N,) + input_shape` flattened to
`(N, prod input_shape)`, as `x.reshape(x.shape[0], -1)` forms them. -/
def ndRows (a : NDArray) : List Vec :=
  reshapeRows (a.shape.headD 0) a.shape.tail.prod a.data

/-- Embeds `_sample_knn` at the array level, tracking shapes: the result
`np.array(X_sampled)` stacks, per instance, the `nb_samples` selected rows of
the flattened training matrix, so its shape is
`(N, nb_samples, prod input_shape)`. -/
def _sample_knn_nd (x X_train : NDArray) (nb_samples : ℕ) : NDArray :=
  let sampled := _sample_knn (ndRows x) (ndRows X_train) nb_samples
  ⟨[x.shape.headD 0, nb_samples, X_train.shape.tail.prod],
    (sampled.map List.flatten).flatten⟩

/-- `np.round` of a rational: round half to even, as IEEE/numpy do. -/
def roundHalfEven (q : ℚ) : ℤ :=
  let f := ⌊q⌋
  let frac := q - f
  if frac < 1 / 2 then f
  else if 1 / 2 < frac then f + 1
  else if f % 2 = 0 then f else f + 1

/-- `size = np.round(epsilon * res).astype(int)`, floored to `2` by
`if size <= 2: size = 2`. -/
def gridSize (epsilon : ℚ) (res : ℕ) : ℤ :=
  let s := roundHalfEven (epsilon * res)
  if s ≤ 2 then 2 else s

/-- The step `delta = |max - min| * (1 / res)` of one feature dimension. -/
def gridDelta (r : ℚ × ℚ) (res : ℕ) : ℚ := |r.2 - r.1| / res

/-- One row of `vprime = rnd_sign * rnd * deltas`: the drawn signs and
magnitudes of one sample times the per-dimension steps. -/
def vprimeRow (sgnR magR : List ℤ) (deltas : List ℚ) : Vec :=
  List.zipWith (fun (sm : ℤ × ℤ) d => ((sm.1 * sm.2 : ℤ) : ℚ) * d)
    (sgnR.zip magR) deltas

/-- Embeds `_sample_gridSampling`.  The random draws are explicit: `sgn`
models `2 * np.random.randint(2, size=(N, nb_samples, dim)) - 1` and `mag`
models `np.random.randint(size, size=(N, nb_samples, dim)) + 1`
(see `validSigns` / `validMags`).  Sample `(n, k)` is
`x[n] + rnd_sign * rnd * deltas`. -/
def _sample_gridSampling (x : List Vec) (features_range : List (ℚ × ℚ))
    (epsilon : ℚ) (nb_samples : ℕ) (res : ℕ)
    (sgn mag : List (List (List ℤ))) : List (List Vec) :=
  let deltas := features_range.map (fun r => gridDelta r res)
  (List.range x.length).map (fun n => (List.range nb_samples).map (fun k =>
    vecAdd (x.getD n [])
      (vprimeRow ((sgn.getD n []).getD k []) ((mag.getD n []).getD k []) deltas)))

/-- The sign draws: every entry of `2 * randint(2) - 1` is `1` or `-1`. -/
abbrev validSigns (sgn : List (List (List ℤ))) : Prop :=
  ∀ p ∈ sgn, ∀ r ∈ p, ∀ s ∈ r, s = 1 ∨ s = -1

/-- The magnitude draws: every entry of `randint(size) + 1` lies in
`[1, size]`. -/
abbrev validMags (mag : List (List (List ℤ))) (size : ℤ) : Prop :=
  ∀ p ∈ mag, ∀ r ∈ p, ∀ m ∈ r, 1 ≤ m ∧ m ≤ size

/-- Embeds `_infer_features_range`: per flattened feature dimension the
`(min, max)` over the training rows (`np.vstack((min, max)).T`). -/
def listMin : List ℚ → ℚ
  | [] => 0
  | h :: t => t.foldl min h

/-- `np.max` along a column, paired with `listMin` by `_infer_features_range`. -/
def listMax : List ℚ → ℚ
  | [] => 0
  | h :: t => t.foldl max h

/-- Embeds `_infer_features_range` on the flattened training rows. -/
def _infer_features_range (X_train : List Vec) : List (ℚ × ℚ) :=
  (List.range (X_train.headD []).length).map (fun j =>
    (listMin (X_train.map (fun r => r.getD j 0)),
     listMax (X_train.map (fun r => r.getD j 0))))

/-- Embeds `_linearity_measure`, the internal dispatcher.  Python `assert`s
and `raise`s become `Except.error` with the source's message; the asserts of
`_sample_gridSampling` (`dim > 0`, `features_range is not None`) are checked
here, before the total Lean sampler runs, because a Python assert aborts the
call.  `alphas is None` defaults to `(0.5, 0.5)`. -/
def _linearity_measure (lg : ℚ → ℚ) (predict : List Vec → List (List ℚ))
    (x : List Vec) (X_train : Option (List Vec))
    (features_range : Option (List (ℚ × ℚ))) (method : String)
    (epsilon : ℚ) (nb_samples : ℕ) (res : ℕ) (alphas : Option (ℚ × ℚ))
    (model_type : String) (sgn mag : List (List (List ℤ))) :
    Except String (List ℚ) :=
  if method = "knn" ∨ method = "gridSampling" then
    let sampled : Except String (List (List Vec)) :=
      if method = "knn" then
        match X_train with
        | none => .error "The knn method requires X_train != None"
        | some Xt => .ok (_sample_knn x Xt nb_samples)
      else
        match features_range with
        | none => .error "The gridSampling method requires features_range != None."
        | some fr =>
          if (x.headD []).length = 0 then
            .error "Dimension of the sphere must be bigger than 0"
          else
            .ok (_sample_gridSampling x fr epsilon nb_samples res sgn mag)
    match sampled with
    | .error e => .error e
    | .ok X_sampled =>
      let a := alphas.getD (1 / 2, 1 / 2)
      if model_type = "classifier" then
        .ok (_calculate_linearity_measure lg predict x X_sampled a.1 a.2).1
      else if model_type = "regressor" then
        .ok (_calculate_linearity_regression predict x X_sampled a.1 a.2).1
      else
        .error "model_type not supported. Supported model types: classifier, regressor"
  else
    .error "sampling method not supported. Supported methods knn or gridSampling."

/-- The `LinearityMeasure` object: its constructor arguments plus the
attributes `fit` sets.  `X_train`, `features_range` and `input_shape` are
`none` while unset (Python: the attributes do not exist before `fit`). -/
structure LinearityMeasure where
  method : String
  epsilon : ℚ
  nb_samples : ℕ
  res : ℕ
  alphas : Option (ℚ × ℚ)
  model_type : String
  is_fit : Bool
  X_train : Option NDArray
  features_range : Option (List (ℚ × ℚ))
  input_shape : Option (List ℕ)

/-- Embeds `LinearityMeasure.__init__`. -/
def LinearityMeasure.init (method : String) (epsilon : ℚ) (nb_samples : ℕ)
    (res : ℕ) (alphas : Option (ℚ × ℚ)) (model_type : String) :
    LinearityMeasure :=
  ⟨method, epsilon, nb_samples, res, alphas, model_type, false, none, none, none⟩

/-- Embeds `LinearityMeasure.fit`: stores the training set, the inferred
feature range and `X_train.shape[1:]`, and flips `is_fit`. -/
def LinearityMeasure.fit (lm : LinearityMeasure) (X_train : NDArray) :
    LinearityMeasure :=
  { lm with
      X_train := some X_train
      features_range := some (_infer_features_range (ndRows X_train))
      input_shape := some X_train.shape.tail
      is_fit := true }

/-- Embeds `LinearityMeasure.linearity_measure`.  When fit, the instance
shape is asserted against the stored one.  The unfit `gridSampling` branch of
the source executes `[[0, 1] for _ in x.shape[1]]`, which iterates over the
integer `x.shape[1]` and raises `TypeError: int object is not iterable`
before any sampling or prediction; that crash is embedded as the
corresponding error. -/
def LinearityMeasure.linearity_measure (lm : LinearityMeasure) (lg : ℚ → ℚ)
    (predict : List Vec → List (List ℚ)) (x : NDArray)
    (sgn mag : List (List (List ℤ))) : Except String (List ℚ) :=
  let input_shape := x.shape.tail
  if lm.is_fit ∧ some input_shape ≠ lm.input_shape then
    .error "AssertionError: input_shape == self.input_shape"
  else if lm.method = "knn" then
    if lm.is_fit = false then
      .error "Method knn cannot be used without calling fit()."
    else
      _linearity_measure lg predict (ndRows x) (lm.X_train.map ndRows) none
        "knn" lm.epsilon lm.nb_samples lm.res lm.alphas lm.model_type sgn mag
  else if lm.method = "gridSampling" then
    if lm.is_fit = false then
      .error "TypeError: int object is not iterable"
    else
      _linearity_measure lg predict (ndRows x) none lm.features_range
        "gridSampling" lm.epsilon lm.nb_samples lm.res lm.alphas lm.model_type
        sgn mag
  else
    .error "method not understood. Supported methods: knn, gridSampling"

/-- Embeds the stateless `linearity_measure` entry point. -/
def linearity_measure (lg : ℚ → ℚ) (predict : List Vec → List (List ℚ))
    (x : List Vec) (features_range : Option (List (ℚ × ℚ))) (method : String)
    (X_train : Option (List Vec)) (epsilon : ℚ) (nb_samples : ℕ) (res : ℕ)
    (alphas : Option (ℚ × ℚ)) (model_type : String)
    (sgn mag : List (List (List ℤ))) : Except String (List ℚ) :=
  if method = "knn" then
    match X_train with
    | none => .error "Method knn requires X_train != None"
    | some _ =>
      _linearity_measure lg predict x X_train none method epsilon nb_samples
        res alphas model_type sgn mag
  else if method = "gridSampling" then
    match features_range, X_train with
    | none, none =>
      .error "Method gridSampling requires features_range != None or X_train != None"
    | none, some Xt =>
      _linearity_measure lg predict x none (some (_infer_features_range Xt))
        method epsilon nb_samples res alphas model_type sgn mag
    | some fr, _ =>
      _linearity_measure lg predict x none (some fr) method epsilon nb_samples
        res alphas model_type sgn mag
  else
    .error "method not understood. Supported methods: knn, gridSampling"

/-! ### Helper lemmas -/

theorem getD_map_lt {α β : Type} (f : α → β) (l : List α) {n : ℕ}
    (h : n < l.length) (d1 : β) (d2 : α) :
    (l.map f).getD n d1 = f (l.getD n d2) := by
  rw [List.getD_eq_getElem _ _ (by simpa using h), List.getD_eq_getElem _ _ h]
  simp

theorem getD_zipWith {α β γ : Type} (f : α → β → γ) (l1 : List α) (l2 : List β)
    {n : ℕ} (h1 : n < l1.length) (h2 : n < l2.length) (d1 : α) (d2 : β) (d3 : γ) :
    (List.zipWith f l1 l2).getD n d3 = f (l1.getD n d1) (l2.getD n d2) := by
  rw [List.getD_eq_getElem _ _ (by simp [List.length_zipWith]; omega),
    List.getD_eq_getElem _ _ h1, List.getD_eq_getElem _ _ h2]
  simp

theorem getD_mem {α : Type} (l : List α) {n : ℕ} (h : n < l.length) (d : α) :
    l.getD n d ∈ l := by
  rw [List.getD_eq_getElem _ _ h]
  exact List.getElem_mem h

theorem lt_length_of_getD_ne {α : Type} (l : List α) (n : ℕ) (d : α)
    (h : l.getD n d ≠ d) : n < l.length := by
  by_contra hc
  exact h (List.getD_eq_default _ _ (by omega))

theorem getD_nonneg {l : List ℚ} (h : ∀ a ∈ l, 0 ≤ a) (n : ℕ) :
    0 ≤ l.getD n 0 := by
  rcases lt_or_le n l.length with hlt | hle
  · exact h _ (getD_mem _ hlt _)
  · rw [List.getD_eq_default _ _ hle]

theorem flatten_length_rect {α : Type} (L : List (List α)) (K : ℕ)
    (h : ∀ r ∈ L, r.length = K) : L.flatten.length = L.length * K := by
  induction L with
  | nil => simp
  | cons hd tl ih =>
    have hh : hd.length = K := h hd (by simp)
    have ht := ih (fun r hr => h r (by simp [hr]))
    simp only [List.flatten_cons, List.length_append, List.length_cons, ht, hh]
    ring

theorem flatten_getD_rect {α : Type} (L : List (List α)) (K : ℕ)
    (h : ∀ r ∈ L, r.length = K) {n k : ℕ} (hn : n < L.length) (hk : k < K)
    (d : α) : L.flatten.getD (n * K + k) d = ((L.getD n []).getD k d) := by
  induction L generalizing n with
  | nil => simp at hn
  | cons hd tl ih =>
    have hh : hd.length = K := h hd (by simp)
    cases n with
    | zero =>
      simp only [List.flatten_cons, Nat.zero_mul, Nat.zero_add]
      rw [List.getD_append _ _ _ _ (by omega)]
      rfl
    | succ m =>
      simp only [List.flatten_cons]
      rw [List.getD_append_right _ _ _ _ (by nlinarith)]
      have harith : (m + 1) * K + k - hd.length = m * K + k := by
        rw [hh]; ring_nf; omega
      rw [harith]
      exact ih (fun r hr => h r (by simp [hr])) (by simpa using hn)

theorem flatten_map_singleton {α β : Type} (f : α → β) (l : List α) :
    (l.map (fun v => [f v])).flatten = l.map f := by
  induction l with
  | nil => rfl
  | cons hd tl ih => simp [ih]

theorem mean_nonneg {l : List ℚ} (h : ∀ a ∈ l, 0 ≤ a) : 0 ≤ mean l :=
  div_nonneg (List.sum_nonneg h) (by positivity)

theorem mean_eq_zero {l : List ℚ} (h : ∀ a ∈ l, a = 0) : mean l = 0 := by
  unfold mean
  rw [List.sum_eq_zero h]
  simp

theorem sqDiffs_nonneg : ∀ (u v : Vec), ∀ c ∈ sqDiffs u v, 0 ≤ c := by
  intro u
  induction u with
  | nil => intro v c hc; simp [sqDiffs] at hc
  | cons a u ih =>
    intro v c hc
    cases v with
    | nil => simp [sqDiffs] at hc
    | cons b v =>
      simp only [sqDiffs, List.zipWith_cons_cons, List.mem_cons] at hc
      rcases hc with hc | hc
      · subst hc; positivity
      · exact ih v c hc

theorem dot_superpose (w : Vec) (a0 a1 : ℚ) :
    ∀ (u v : Vec), u.length = v.length →
      dot w (superpose a0 a1 u v) = a0 * dot w u + a1 * dot w v := by
  induction w with
  | nil => intro u v _; simp [dot]
  | cons c w ih =>
    intro u v h
    cases u with
    | nil =>
      cases v with
      | nil => simp [dot, superpose, vecAdd, scale]
      | cons b v => simp at h
    | cons a u =>
      cases v with
      | nil => simp at h
      | cons b v =>
        have hl : u.length = v.length := by simpa using h
        simp only [dot, superpose, vecAdd, scale, List.map_cons,
          List.zipWith_cons_cons, List.sum_cons]
        have ihr := ih u v hl
        simp only [dot, superpose, vecAdd, scale] at ihr
        rw [ihr]
        ring

theorem nnRel_trans (X : List Vec) (q : Vec) :
    ∀ a b c : ℕ, nnRel X q a b = true → nnRel X q b c = true →
      nnRel X q a c = true := by
  intro a b c hab hbc
  simp only [nnRel, decide_eq_true_eq] at *
  exact le_trans hab hbc

theorem nnRel_total (X : List Vec) (q : Vec) :
    ∀ a b : ℕ, (nnRel X q a b || nnRel X q b a) = true := by
  intro a b
  simp only [nnRel, Bool.or_eq_true, decide_eq_true_eq]
  exact le_total _ _

theorem nnSorted_pairwise (X : List Vec) (q : Vec) :
    List.Pairwise (fun i j => sqDist (X.getD i []) q ≤ sqDist (X.getD j []) q)
      (nnSorted X q) := by
  have h := List.sorted_mergeSort (nnRel_trans X q) (nnRel_total X q)
    (List.range X.length)
  exact h.imp (fun hab => by simpa [nnRel] using hab)

theorem nnSorted_perm (X : List Vec) (q : Vec) :
    (nnSorted X q).Perm (List.range X.length) :=
  List.mergeSort_perm _ _

theorem mem_kneighbors_lt (X : List Vec) (q : Vec) (k : ℕ) {i : ℕ}
    (h : i ∈ kneighbors X q k) : i < X.length := by
  have h1 : i ∈ nnSorted X q := List.take_subset _ _ h
  have h2 := (nnSorted_perm X q).mem_iff.mp h1
  simpa using h2

theorem kneighbors_length (X : List Vec) (q : Vec) {k : ℕ} (h : k ≤ X.length) :
    (kneighbors X q k).length = k := by
  unfold kneighbors nnSorted
  rw [List.length_take, List.length_mergeSort, List.length_range]
  omega

theorem kneighbors_pairwise (X : List Vec) (q : Vec) (k : ℕ) :
    List.Pairwise (fun i j => sqDist (X.getD i []) q ≤ sqDist (X.getD j []) q)
      (kneighbors X q k) :=
  List.Pairwise.sublist (List.take_sublist _ _) (nnSorted_pairwise X q)

theorem kneighbors_getD_mono (X : List Vec) (q : Vec) (k : ℕ) {i j : ℕ}
    (hij : i ≤ j) (hj : j < (kneighbors X q k).length) :
    sqDist (X.getD ((kneighbors X q k).getD i 0) []) q ≤
      sqDist (X.getD ((kneighbors X q k).getD j 0) []) q := by
  rcases eq_or_lt_of_le hij with rfl | hlt
  · exact le_refl _
  · have hi : i < (kneighbors X q k).length := lt_trans hlt hj
    have hp := kneighbors_pairwise X q k
    rw [List.pairwise_iff_get] at hp
    have hr := hp ⟨i, hi⟩ ⟨j, hj⟩ (by simpa using hlt)
    rw [List.getD_eq_getElem _ _ hi, List.getD_eq_getElem _ _ hj]
    simpa using hr

theorem kneighbors_min (X : List Vec) (q : Vec) (k : ℕ) {b : ℕ}
    (hb : b < X.length) (hnot : b ∉ kneighbors X q k) :
    ∀ a ∈ kneighbors X q k,
      sqDist (X.getD a []) q ≤ sqDist (X.getD b []) q := by
  intro a ha
  have hmem : b ∈ nnSorted X q :=
    (nnSorted_perm X q).mem_iff.mpr (List.mem_range.mpr hb)
  have hsplit : (nnSorted X q).take k ++ (nnSorted X q).drop k = nnSorted X q :=
    List.take_append_drop _ _
  have hpair : List.Pairwise
      (fun i j => sqDist (X.getD i []) q ≤ sqDist (X.getD j []) q)
      ((nnSorted X q).take k ++ (nnSorted X q).drop k) := by
    rw [hsplit]; exact nnSorted_pairwise X q
  have hdrop : b ∈ (nnSorted X q).drop k := by
    rcases List.mem_append.mp (by rw [hsplit]; exact hmem) with h | h
    · exact absurd h hnot
    · exact h
  exact (List.pairwise_append.mp hpair).2.2 a ha b hdrop

theorem getD_range {N n : ℕ} (h : n < N) (d : ℕ) : (List.range N).getD n d = n := by
  rw [List.getD_eq_getElem _ _ (by simpa using h)]
  exact List.getElem_range _ _

theorem grid_row_eq (x : List Vec) (fr : List (ℚ × ℚ)) (epsilon : ℚ)
    (nb_samples res : ℕ) (sgn mag : List (List (List ℤ))) {n k : ℕ}
    (hn : n < x.length) (hk : k < nb_samples) :
    ((_sample_gridSampling x fr epsilon nb_samples res sgn mag).getD n []).getD k [] =
      vecAdd (x.getD n [])
        (vprimeRow ((sgn.getD n []).getD k []) ((mag.getD n []).getD k [])
          (fr.map (fun r => gridDelta r res))) := by
  unfold _sample_gridSampling
  rw [getD_map_lt _ _ (by simpa using hn) _ 0, getD_range hn,
    getD_map_lt _ _ (by simpa using hk) _ 0, getD_range hk]

theorem gridDelta_nonneg (r : ℚ × ℚ) (res : ℕ) : 0 ≤ gridDelta r res :=
  div_nonneg (abs_nonneg _) (by positivity)

theorem grid_offset_eq (x : List Vec) (fr : List (ℚ × ℚ)) (epsilon : ℚ)
    (nb_samples res : ℕ) (sgn mag : List (List (List ℤ))) {n k j : ℕ}
    (hn : n < x.length) (hk : k < nb_samples)
    (hx : j < (x.getD n []).length) (hfr : j < fr.length)
    (hsg : j < ((sgn.getD n []).getD k []).length)
    (hmg : j < ((mag.getD n []).getD k []).length) :
    (((_sample_gridSampling x fr epsilon nb_samples res sgn mag).getD n []).getD k []).getD j 0
        - (x.getD n []).getD j 0 =
      (((((sgn.getD n []).getD k []).getD j 0) * (((mag.getD n []).getD k []).getD j 0) : ℤ) : ℚ)
        * gridDelta (fr.getD j (0, 0)) res := by
  rw [grid_row_eq x fr epsilon nb_samples res sgn mag hn hk]
  unfold vecAdd vprimeRow
  have hzip : ((sgn.getD n []).getD k []).zip ((mag.getD n []).getD k []) =
      List.zipWith Prod.mk ((sgn.getD n []).getD k []) ((mag.getD n []).getD k []) := rfl
  have hlenv : j < (List.zipWith
      (fun (sm : ℤ × ℤ) d => ((sm.1 * sm.2 : ℤ) : ℚ) * d)
      (((sgn.getD n []).getD k []).zip ((mag.getD n []).getD k []))
      (fr.map (fun r => gridDelta r res))).length := by
    simp only [List.length_zipWith, List.length_zip, List.length_map]
    omega
  rw [getD_zipWith _ _ _ hx hlenv 0 0 0]
  rw [hzip, getD_zipWith _ _ _
      (by rw [← hzip, List.length_zip]; exact lt_min hsg hmg)
      (by simpa using hfr) (0, 0) (gridDelta (fr.getD j (0, 0)) res) 0]
  rw [getD_zipWith _ _ _ hsg hmg 0 0 (0, 0)]
  rw [getD_map_lt _ _ hfr _ (0, 0)]
  ring

theorem grid_draw_facts (epsilon : ℚ) (res : ℕ)
    (sgn mag : List (List (List ℤ))) {n k j : ℕ}
    (hs : validSigns sgn) (hm : validMags mag (gridSize epsilon res))
    (hsg : j < ((sgn.getD n []).getD k []).length)
    (hmg : j < ((mag.getD n []).getD k []).length) :
    (((sgn.getD n []).getD k []).getD j 0 = 1 ∨
      ((sgn.getD n []).getD k []).getD j 0 = -1) ∧
    1 ≤ ((mag.getD n []).getD k []).getD j 0 ∧
    ((mag.getD n []).getD k []).getD j 0 ≤ gridSize epsilon res := by
  have hs3 : ((sgn.getD n []).getD k []).getD j 0 ∈ (sgn.getD n []).getD k [] :=
    getD_mem _ hsg _
  have hs2 : (sgn.getD n []).getD k [] ∈ sgn.getD n [] := by
    refine getD_mem _ (lt_length_of_getD_ne (sgn.getD n []) k [] ?_) _
    intro hnil
    rw [hnil] at hsg
    simp at hsg
  have hs1 : sgn.getD n [] ∈ sgn := by
    refine getD_mem _ (lt_length_of_getD_ne sgn n [] ?_) _
    intro hnil
    rw [hnil] at hs2
    simp at hs2
  have hm3 : ((mag.getD n []).getD k []).getD j 0 ∈ (mag.getD n []).getD k [] :=
    getD_mem _ hmg _
  have hm2 : (mag.getD n []).getD k [] ∈ mag.getD n [] := by
    refine getD_mem _ (lt_length_of_getD_ne (mag.getD n []) k [] ?_) _
    intro hnil
    rw [hnil] at hmg
    simp at hmg
  have hm1 : mag.getD n [] ∈ mag := by
    refine getD_mem _ (lt_length_of_getD_ne mag n [] ?_) _
    intro hnil
    rw [hnil] at hm2
    simp at hm2
  exact ⟨hs _ hs1 _ hs2 _ hs3, hm _ hm1 _ hm2 _ hm3⟩

/-! ### The claims -/

/-- C1 (counterexample): at a concrete invocation the scorers do not make
two `predict_fn` calls — the combined-input term is one call but the
instance terms (`predict_fn(x)`) and the sample terms
(`predict_fn(X_samples)`) are two further separate calls. -/
theorem predict_calls_not_two :
    ¬ ((_calculate_linearity_regression (fun b => b.map (fun _ => [1]))
        [[0]] [[[0]]] (1 / 2) (1 / 2)).2.length = 2) ∧
    ¬ ((_calculate_linearity_measure (fun t => t) (fun b => b.map (fun _ => [1]))
        [[0]] [[[0]]] (1 / 2) (1 / 2)).2.length = 2) := by
  constructor <;> decide

/-- C1 (amended): every scoring invocation, for either model type and any
sampled neighborhood (hence either sampling strategy), issues exactly THREE
batched `predict_fn` calls — one over all samples, one over all instances,
one over all superpositions — never a per-sample loop, so the call count is
independent of the number of instances and samples. -/
theorem predict_calls_batched_three (lg : ℚ → ℚ)
    (predict : List Vec → List (List ℚ)) (x : List Vec)
    (X_samples : List (List Vec)) (a0 a1 : ℚ) :
    (_calculate_linearity_regression predict x X_samples a0 a1).2.length = 3 ∧
    (_calculate_linearity_measure lg predict x X_samples a0 a1).2.length = 3 :=
  ⟨rfl, rfl⟩

/-- C2 (code bug): on an unfit `LinearityMeasure` with the grid strategy,
the scoring call does not fall back to a unit feature range — the fallback
line `[[0, 1] for _ in x.shape[1]]` iterates over the integer `x.shape[1]`
and raises `TypeError`, so every such call aborts. -/
theorem unfit_grid_measure_raises (lm : LinearityMeasure) (lg : ℚ → ℚ)
    (predict : List Vec → List (List ℚ)) (x : NDArray)
    (sgn mag : List (List (List ℤ)))
    (hfit : lm.is_fit = false) (hm : lm.method = "gridSampling") :
    lm.linearity_measure lg predict x sgn mag =
      .error "TypeError: int object is not iterable" := by
  unfold LinearityMeasure.linearity_measure
  simp [hfit, hm]

/-- C2 witness: a freshly constructed grid-strategy measure aborts with the
TypeError on a concrete instance batch. -/
theorem unfit_grid_measure_raises_witness :
    (LinearityMeasure.init "gridSampling" (1 / 25) 10 100 none
        "classifier").linearity_measure (fun t => t) (fun b => b)
        ⟨[1, 2], [1 / 2, 1 / 2]⟩ [] [] =
      .error "TypeError: int object is not iterable" :=
  unfit_grid_measure_raises _ _ _ _ _ _ rfl rfl
theorem gridSize_zero_one : gridSize 0 1 = 2 := by
  unfold gridSize roundHalfEven
  norm_num

/-- C3 (counterexample): with `epsilon = 0`, `res = 1` and feature range
`[0, 1]`, a legal draw (sign `1`, magnitude `2 ≤ size`, since `size` is
floored to `2`) moves the sampled point `2` away from the instance, which
exceeds the claimed bound `round(epsilon * res) * delta = 0` — so the
claimed bound fails and the `epsilon = 0` case is not confined to one
discretization step. -/
theorem grid_offset_bound_fails :
    validSigns [[[1]]] ∧ validMags [[[2]]] (gridSize 0 1) ∧
    ¬ (|(((_sample_gridSampling [[0]] [((0 : ℚ), (1 : ℚ))] 0 1 1 [[[1]]]
            [[[2]]]).getD 0 []).getD 0 []).getD 0 0 -
          (([[(0 : ℚ)]].getD 0 []).getD 0 0)| ≤
        ((roundHalfEven ((0 : ℚ) * ((1 : ℕ) : ℚ)) : ℤ) : ℚ) *
          gridDelta ([((0 : ℚ), (1 : ℚ))].getD 0 (0, 0)) 1) := by
  refine ⟨by decide, ?_, ?_⟩
  · rw [gridSize_zero_one]; decide
  · rw [@grid_offset_eq [[0]] [((0 : ℚ), (1 : ℚ))] 0 1 1 [[[1]]] [[[2]]] 0 0 0
      (by decide) (by decide) (by decide) (by decide) (by decide) (by decide)]
    simp only [List.getD_cons_zero]
    norm_num [gridDelta, roundHalfEven]

/-- C3 (amended): for every legal draw, the offset of a sampled point from
the central instance is bounded, per feature dimension, by `size * delta`
where `size = max(round(epsilon * res), 2)` (the code floors
`round(epsilon * res)` to `2`); the claimed bound
`round(epsilon * res) * delta` holds whenever `round(epsilon * res) ≥ 2`,
and with `epsilon = 0` the offsets stay within two discretization steps. -/
theorem grid_offset_bounded (x : List Vec) (fr : List (ℚ × ℚ)) (epsilon : ℚ)
    (nb_samples res : ℕ) (sgn mag : List (List (List ℤ))) (n k j : ℕ)
    (hs : validSigns sgn) (hm : validMags mag (gridSize epsilon res))
    (hn : n < x.length) (hk : k < nb_samples)
    (hx : j < (x.getD n []).length) (hfr : j < fr.length)
    (hsg : j < ((sgn.getD n []).getD k []).length)
    (hmg : j < ((mag.getD n []).getD k []).length) :
    |(((_sample_gridSampling x fr epsilon nb_samples res sgn mag).getD n
          []).getD k []).getD j 0 - (x.getD n []).getD j 0| ≤
      ((gridSize epsilon res : ℤ) : ℚ) * gridDelta (fr.getD j (0, 0)) res := by
  rw [grid_offset_eq x fr epsilon nb_samples res sgn mag hn hk hx hfr hsg hmg]
  obtain ⟨hsv, hm1, hm2⟩ := grid_draw_facts epsilon res sgn mag hs hm hsg hmg
  have hd : 0 ≤ gridDelta (fr.getD j (0, 0)) res := gridDelta_nonneg _ _
  have habs : |(((((sgn.getD n []).getD k []).getD j 0) *
      (((mag.getD n []).getD k []).getD j 0) : ℤ) : ℚ)| ≤
      ((gridSize epsilon res : ℤ) : ℚ) := by
    push_cast
    rw [abs_mul]
    rcases hsv with h1 | h1 <;> rw [h1] <;>
      simp only [Int.cast_one, Int.cast_neg, abs_one, abs_neg, one_mul] <;>
      rw [abs_of_nonneg (by exact_mod_cast le_trans zero_le_one hm1)] <;>
      exact_mod_cast hm2
  rw [abs_mul, abs_of_nonneg hd]
  exact mul_le_mul_of_nonneg_right habs hd

/-- C3 witness: a concrete legal draw attains the amended bound. -/
theorem grid_offset_bounded_witness :
    |(((_sample_gridSampling [[0]] [((0 : ℚ), (1 : ℚ))] 0 1 1 [[[1]]]
          [[[2]]]).getD 0 []).getD 0 []).getD 0 0 -
        (([[(0 : ℚ)]].getD 0 []).getD 0 0)| ≤
      ((gridSize 0 1 : ℤ) : ℚ) * gridDelta ([((0 : ℚ), (1 : ℚ))].getD 0 (0, 0)) 1 :=
  grid_offset_bounded [[0]] [((0 : ℚ), (1 : ℚ))] 0 1 1 [[[1]]] [[[2]]] 0 0 0
    (by decide) (by rw [gridSize_zero_one]; decide) (by decide) (by decide)
    (by decide) (by decide) (by decide) (by decide)

/-- C10: in every feature dimension with `min < max` (and a positive grid
resolution), a sampled point differs from the central instance by at least
one step `delta = |max - min| / res`, because the drawn integer magnitude is
at least `1`; in particular the sampled point never coincides with the
instance in such a dimension. -/
theorem grid_offset_at_least_delta (x : List Vec) (fr : List (ℚ × ℚ))
    (epsilon : ℚ) (nb_samples res : ℕ) (sgn mag : List (List (List ℤ)))
    (n k j : ℕ)
    (hs : validSigns sgn) (hm : validMags mag (gridSize epsilon res))
    (hres : 0 < res) (hrange : (fr.getD j (0, 0)).1 < (fr.getD j (0, 0)).2)
    (hn : n < x.length) (hk : k < nb_samples)
    (hx : j < (x.getD n []).length) (hfr : j < fr.length)
    (hsg : j < ((sgn.getD n []).getD k []).length)
    (hmg : j < ((mag.getD n []).getD k []).length) :
    gridDelta (fr.getD j (0, 0)) res ≤
      |(((_sample_gridSampling x fr epsilon nb_samples res sgn mag).getD n
            []).getD k []).getD j 0 - (x.getD n []).getD j 0| ∧
    (((_sample_gridSampling x fr epsilon nb_samples res sgn mag).getD n
          []).getD k []).getD j 0 ≠ (x.getD n []).getD j 0 := by
  have heq := grid_offset_eq x fr epsilon nb_samples res sgn mag hn hk hx hfr hsg hmg
  obtain ⟨hsv, hm1, _⟩ := grid_draw_facts epsilon res sgn mag hs hm hsg hmg
  have hdpos : 0 < gridDelta (fr.getD j (0, 0)) res := by
    unfold gridDelta
    apply div_pos
    · rw [abs_pos, sub_ne_zero]
      exact ne_of_gt hrange
    · exact_mod_cast hres
  have hmag1 : (1 : ℚ) ≤ |(((((sgn.getD n []).getD k []).getD j 0) *
      (((mag.getD n []).getD k []).getD j 0) : ℤ) : ℚ)| := by
    push_cast
    rw [abs_mul]
    rcases hsv with h1 | h1 <;> rw [h1] <;>
      simp only [Int.cast_one, Int.cast_neg, abs_one, abs_neg, one_mul] <;>
      rw [abs_of_nonneg (by exact_mod_cast le_trans zero_le_one hm1)] <;>
      exact_mod_cast hm1
  have hbound : gridDelta (fr.getD j (0, 0)) res ≤
      |(((_sample_gridSampling x fr epsilon nb_samples res sgn mag).getD n
            []).getD k []).getD j 0 - (x.getD n []).getD j 0| := by
    rw [heq, abs_mul, abs_of_nonneg (le_of_lt hdpos)]
    have h2 := mul_le_mul_of_nonneg_right hmag1 (le_of_lt hdpos)
    rw [one_mul] at h2
    exact h2
  refine ⟨hbound, ?_⟩
  intro hcontra
  rw [hcontra, sub_self, abs_zero] at hbound
  exact absurd hbound (not_le.mpr hdpos)

/-- C10 witness: with range `[0, 1]`, `res = 1` and magnitude draw `1`, the
sampled point moves by exactly one step and differs from the instance. -/
theorem grid_offset_at_least_delta_witness :
    gridDelta ([((0 : ℚ), (1 : ℚ))].getD 0 (0, 0)) 1 ≤
      |(((_sample_gridSampling [[5]] [((0 : ℚ), (1 : ℚ))] 0 1 1 [[[1]]]
            [[[1]]]).getD 0 []).getD 0 []).getD 0 0 -
          (([[(5 : ℚ)]].getD 0 []).getD 0 0)| ∧
    (((_sample_gridSampling [[5]] [((0 : ℚ), (1 : ℚ))] 0 1 1 [[[1]]]
          [[[1]]]).getD 0 []).getD 0 []).getD 0 0 ≠
      (([[(5 : ℚ)]].getD 0 []).getD 0 0) :=
  grid_offset_at_least_delta [[5]] [((0 : ℚ), (1 : ℚ))] 0 1 1 [[[1]]] [[[1]]]
    0 0 0 (by decide) (by rw [gridSize_zero_one]; decide) (by decide)
    (by decide) (by decide) (by decide) (by decide) (by decide) (by decide)
    (by decide)
/-- C5: the nearest-neighbor sampler returns, per instance, the rows of the
`nb_samples` nearest training points (squared distance induces the same
order as Euclidean distance), in non-decreasing distance order; every
training point outside the selection is at least as far as every selected
one; and the sampler is a pure function of its inputs, hence two runs on the
same inputs coincide. -/
theorem knn_k_nearest_sorted (x X_train : List Vec) (nb_samples t : ℕ)
    (ht : t < x.length) :
    ((_sample_knn x X_train nb_samples).getD t [] =
      (kneighbors X_train (x.getD t []) nb_samples).map
        (fun i => X_train.getD i [])) ∧
    (nb_samples ≤ X_train.length →
      (kneighbors X_train (x.getD t []) nb_samples).length = nb_samples) ∧
    (∀ i j : ℕ, i ≤ j →
      j < (kneighbors X_train (x.getD t []) nb_samples).length →
      sqDist (X_train.getD
          ((kneighbors X_train (x.getD t []) nb_samples).getD i 0) [])
        (x.getD t []) ≤
      sqDist (X_train.getD
          ((kneighbors X_train (x.getD t []) nb_samples).getD j 0) [])
        (x.getD t [])) ∧
    (∀ b : ℕ, b < X_train.length →
      b ∉ kneighbors X_train (x.getD t []) nb_samples →
      ∀ a ∈ kneighbors X_train (x.getD t []) nb_samples,
        sqDist (X_train.getD a []) (x.getD t []) ≤
          sqDist (X_train.getD b []) (x.getD t [])) ∧
    _sample_knn x X_train nb_samples = _sample_knn x X_train nb_samples := by
  refine ⟨?_, ?_, ?_, ?_, rfl⟩
  · unfold _sample_knn
    exact getD_map_lt _ _ ht _ []
  · intro h
    exact kneighbors_length _ _ h
  · intro i j hij hj
    exact kneighbors_getD_mono _ _ _ hij hj
  · intro b hb hnot a ha
    exact kneighbors_min _ _ _ hb hnot a ha

/-- C5 witness: the theorem at a concrete batch and training set. -/
theorem knn_k_nearest_sorted_witness :
    ((_sample_knn [[1]] [[0], [2]] 1).getD 0 [] =
      (kneighbors [[0], [2]] ([[(1 : ℚ)]].getD 0 []) 1).map
        (fun i => [[(0 : ℚ)], [2]].getD i [])) ∧
    (1 ≤ [[(0 : ℚ)], [2]].length →
      (kneighbors [[0], [2]] ([[(1 : ℚ)]].getD 0 []) 1).length = 1) ∧
    (∀ i j : ℕ, i ≤ j →
      j < (kneighbors [[0], [2]] ([[(1 : ℚ)]].getD 0 []) 1).length →
      sqDist ([[(0 : ℚ)], [2]].getD
          ((kneighbors [[0], [2]] ([[(1 : ℚ)]].getD 0 []) 1).getD i 0) [])
        ([[(1 : ℚ)]].getD 0 []) ≤
      sqDist ([[(0 : ℚ)], [2]].getD
          ((kneighbors [[0], [2]] ([[(1 : ℚ)]].getD 0 []) 1).getD j 0) [])
        ([[(1 : ℚ)]].getD 0 [])) ∧
    (∀ b : ℕ, b < [[(0 : ℚ)], [2]].length →
      b ∉ kneighbors [[0], [2]] ([[(1 : ℚ)]].getD 0 []) 1 →
      ∀ a ∈ kneighbors [[0], [2]] ([[(1 : ℚ)]].getD 0 []) 1,
        sqDist ([[(0 : ℚ)], [2]].getD a []) ([[(1 : ℚ)]].getD 0 []) ≤
          sqDist ([[(0 : ℚ)], [2]].getD b []) ([[(1 : ℚ)]].getD 0 [])) ∧
    _sample_knn [[1]] [[0], [2]] 1 = _sample_knn [[1]] [[0], [2]] 1 :=
  knn_k_nearest_sorted [[1]] [[0], [2]] 1 0 (by decide)

/-- C6 (counterexample): for a rank-2 `input_shape = (2, 2)` the
nearest-neighbor sampler does not return members of shape `input_shape`:
`np.array(X_sampled)` has shape `(1, 1, 4)`, the members being the
flattened rows, not `(1, 1, 2, 2)`. -/
theorem knn_shape_not_input_shape :
    ¬ ((_sample_knn_nd ⟨[1, 2, 2], [0, 0, 0, 0]⟩
        ⟨[3, 2, 2], [0, 1, 2, 3, 4, 5, 6, 7, 8, 9, 10, 11]⟩ 1).shape =
      [1, 1] ++ [2, 2]) := by decide

/-- C6 (amended): the sampler returns, per instance, `nb_samples` FLATTENED
training instances: the result has shape
`(N, nb_samples, prod input_shape)` — not `(N, nb_samples) + input_shape`
unless `input_shape` has rank one — and every member is the flat (C-order)
data of one original training instance, entries preserved. -/
theorem knn_members_flattened (x X_train : NDArray) (nb_samples : ℕ) :
    (_sample_knn_nd x X_train nb_samples).shape =
      [x.shape.headD 0, nb_samples, X_train.shape.tail.prod] ∧
    ∀ row ∈ _sample_knn (ndRows x) (ndRows X_train) nb_samples,
      ∀ v ∈ row, v ∈ ndRows X_train := by
  refine ⟨rfl, ?_⟩
  intro row hrow v hv
  unfold _sample_knn at hrow
  obtain ⟨xi, hxi, rfl⟩ := List.mem_map.mp hrow
  obtain ⟨i, hi, rfl⟩ := List.mem_map.mp hv
  exact getD_mem _ (mem_kneighbors_lt _ _ _ hi) _

/-- C7: every per-instance linearity score is non-negative, for both the
classifier and the regressor scorer, whatever the sampled neighborhood
(hence for either sampling strategy): each score is a mean of squared
discrepancies. -/
theorem linearity_scores_nonneg (lg : ℚ → ℚ)
    (predict : List Vec → List (List ℚ)) (x : List Vec)
    (X_samples : List (List Vec)) (a0 a1 : ℚ) (n : ℕ) :
    0 ≤ (_calculate_linearity_measure lg predict x X_samples a0 a1).1.getD n 0 ∧
    0 ≤ (_calculate_linearity_regression predict x X_samples a0 a1).1.getD n 0 := by
  constructor
  · apply getD_nonneg
    intro a ha
    simp only [_calculate_linearity_measure, List.mem_map] at ha
    obtain ⟨m, hm, rfl⟩ := ha
    apply mean_nonneg
    intro c hc
    simp only [List.mem_flatten, List.mem_map] at hc
    obtain ⟨row, ⟨k, hk, rfl⟩, hcrow⟩ := hc
    exact sqDiffs_nonneg _ _ _ hcrow
  · apply getD_nonneg
    intro a ha
    simp only [_calculate_linearity_regression, List.mem_map] at ha
    obtain ⟨m, hm, rfl⟩ := ha
    apply mean_nonneg
    intro c hc
    simp only [List.mem_map] at hc
    obtain ⟨k, hk, rfl⟩ := hc
    positivity

/-- C4 (counterexample): an exactly affine regressor (`predict(v) = v . (1) + 1`)
scored with the valid non-negative alphas `(1, 1)` through a scoring
invocation (nearest-neighbor strategy, instance `[0]`, training point `[2]`)
returns the score `1`, not `0`: the affine offset `b` contributes
`(1 - alpha0 - alpha1) * b` to the discrepancy. -/
theorem affine_any_alphas_fails :
    linearity_measure (fun t => t)
        (fun batch => batch.map (fun v => [dot [1] v + 1]))
        [[0]] none "knn" (some [[2]]) (1 / 25) 1 100 (some (1, 1))
        "regressor" [] [] = Except.ok [1] ∧ (1 : ℚ) ≠ 0 := by
  constructor
  · show _linearity_measure (fun t => t)
        (fun batch => batch.map (fun v => [dot [1] v + 1]))
        [[0]] (some [[2]]) none "knn" (1 / 25) 1 100 (some (1, 1))
        "regressor" [] [] = Except.ok [1]
    show Except.ok (_calculate_linearity_regression
        (fun batch => batch.map (fun v => [dot [1] v + 1]))
        [[0]] (_sample_knn [[0]] [[2]] 1) 1 1).1 = Except.ok [1]
    have hknn : _sample_knn [[(0 : ℚ)]] [[2]] 1 = [[[2]]] := by
      simp [_sample_knn, kneighbors, nnSorted, List.range_succ]
    rw [hknn]
    simp [_calculate_linearity_regression, superpose, vecAdd, scale, dot,
      mean, List.range_succ]
  · norm_num

/-- C4 (amended): for an exactly affine regressor `predict(v) = w . v + b`,
every per-instance linearity score is exactly `0` whenever the superposition
coefficients satisfy `alpha0 + alpha1 = 1` (as the default `(0.5, 0.5)`
does; for a strictly linear model, `b = 0`, any alphas work), for any
rectangular sampled neighborhood — hence for both sampling strategies. -/
theorem affine_regressor_score_zero (w : Vec) (b : ℚ) (x : List Vec)
    (X_samples : List (List Vec)) (a0 a1 : ℚ) (ha : a0 + a1 = 1)
    (hN : X_samples.length = x.length)
    (hrect : ∀ row ∈ X_samples, row.length = (X_samples.headD []).length)
    (hlen : ∀ n k : ℕ, n < x.length → k < (X_samples.headD []).length →
      ((X_samples.getD n []).getD k []).length = (x.getD n []).length) :
    (_calculate_linearity_regression
      (fun batch => batch.map (fun v => [dot w v + b])) x X_samples a0 a1).1 =
      List.replicate x.length 0 := by
  rw [List.eq_replicate_iff]
  constructor
  · simp [_calculate_linearity_regression]
  · intro s hs
    simp only [_calculate_linearity_regression, flatten_map_singleton,
      List.mem_map, List.mem_range] at hs
    obtain ⟨n, hn, rfl⟩ := hs
    apply mean_eq_zero
    intro c hc
    simp only [List.mem_map, List.mem_range] at hc
    obtain ⟨k, hk, rfl⟩ := hc
    have hidx : n * (X_samples.headD []).length + k <
        x.length * (X_samples.headD []).length := by
      calc n * (X_samples.headD []).length + k
          < n * (X_samples.headD []).length + (X_samples.headD []).length := by
            omega
        _ = (n + 1) * (X_samples.headD []).length := by ring
        _ ≤ x.length * (X_samples.headD []).length :=
            Nat.mul_le_mul_right _ hn
    have hflen : X_samples.flatten.length =
        x.length * (X_samples.headD []).length := by
      rw [flatten_length_rect X_samples _ hrect, hN]
    have h3 := getD_map_lt (fun v => dot w v + b) X_samples.flatten
      (by rw [hflen]; exact hidx) (0 : ℚ) ([] : Vec)
    have h4 := flatten_getD_rect X_samples (X_samples.headD []).length hrect
      (by rw [hN]; exact hn) hk ([] : Vec)
    have h1 := getD_map_lt (fun v => dot w v + b) x hn (0 : ℚ) ([] : Vec)
    rw [h3, h4, h1]
    have hsrect : ∀ r ∈ (List.range x.length).map (fun n =>
        (List.range (X_samples.headD []).length).map (fun k =>
          superpose a0 a1 (x.getD n []) ((X_samples.getD n []).getD k []))),
        r.length = (X_samples.headD []).length := by
      intro r hr
      obtain ⟨m, hm, rfl⟩ := List.mem_map.mp hr
      simp
    have hslen : ((List.range x.length).map (fun n =>
        (List.range (X_samples.headD []).length).map (fun k =>
          superpose a0 a1 (x.getD n []) ((X_samples.getD n []).getD k
            [])))).length = x.length := by
      simp
    have h9 := getD_map_lt (fun v => dot w v + b)
      ((List.range x.length).map (fun n =>
        (List.range (X_samples.headD []).length).map (fun k =>
          superpose a0 a1 (x.getD n []) ((X_samples.getD n []).getD k
            [])))).flatten
      (by rw [flatten_length_rect _ _ hsrect, hslen]; exact hidx)
      (0 : ℚ) ([] : Vec)
    have h6 := flatten_getD_rect
      ((List.range x.length).map (fun n =>
        (List.range (X_samples.headD []).length).map (fun k =>
          superpose a0 a1 (x.getD n []) ((X_samples.getD n []).getD k []))))
      (X_samples.headD []).length hsrect
      (by rw [hslen]; exact hn) hk ([] : Vec)
    rw [h9, h6]
    have h7 := getD_map_lt (fun n =>
        (List.range (X_samples.headD []).length).map (fun k =>
          superpose a0 a1 (x.getD n []) ((X_samples.getD n []).getD k [])))
      (List.range x.length) (by simpa using hn) ([] : List Vec) 0
    rw [h7, getD_range hn]
    have h8 := getD_map_lt (fun k =>
        superpose a0 a1 (x.getD n []) ((X_samples.getD n []).getD k []))
      (List.range (X_samples.headD []).length) (by simpa using hk)
      ([] : Vec) 0
    rw [h8, getD_range hk]
    rw [pow_eq_zero_iff (by norm_num : (2 : ℕ) ≠ 0)]
    rw [dot_superpose w a0 a1 (x.getD n []) ((X_samples.getD n []).getD k [])
      (hlen n k hn hk).symm]
    linear_combination (-b) * ha

/-- C4 witness: the theorem at a concrete affine model and neighborhood with
the default coefficients. -/
theorem affine_regressor_score_zero_witness :
    (_calculate_linearity_regression
      (fun batch => batch.map (fun v => [dot [1] v + 1])) [[(2 : ℚ)]] [[[3]]]
      (1 / 2) (1 / 2)).1 = List.replicate [[(2 : ℚ)]].length 0 :=
  affine_regressor_score_zero [1] 1 [[(2 : ℚ)]] [[[3]]] (1 / 2) (1 / 2)
    (by norm_num) (by decide) (by decide)
    (by
      intro n k hn hk
      norm_num at hn hk
      have hn0 : n = 0 := by omega
      have hk0 : k = 0 := by omega
      subst hn0
      subst hk0
      decide)

/-- C8: (1) scoring with the nearest-neighbor strategy on an unfit facade
fails with the precondition error, before any sampling or prediction; (2)
after `fit(X_train)`, scoring with the grid strategy succeeds (for a
matching instance shape, a positive flattened dimension and a supported
model type) and runs on exactly the feature range inferred and stored by
`fit`. -/
theorem facade_fit_state :
    (∀ (lm : LinearityMeasure) (lg : ℚ → ℚ)
        (predict : List Vec → List (List ℚ)) (x : NDArray)
        (sgn mag : List (List (List ℤ))),
      lm.is_fit = false → lm.method = "knn" →
        lm.linearity_measure lg predict x sgn mag =
          .error "Method knn cannot be used without calling fit().") ∧
    (∀ (lm : LinearityMeasure) (Xt : NDArray) (lg : ℚ → ℚ)
        (predict : List Vec → List (List ℚ)) (x : NDArray)
        (sgn mag : List (List (List ℤ))),
      lm.method = "gridSampling" → x.shape.tail = Xt.shape.tail →
      ((ndRows x).headD []).length ≠ 0 →
      (lm.model_type = "classifier" ∨ lm.model_type = "regressor") →
        ((lm.fit Xt).linearity_measure lg predict x sgn mag =
          _linearity_measure lg predict (ndRows x) none
            (some (_infer_features_range (ndRows Xt))) "gridSampling"
            lm.epsilon lm.nb_samples lm.res lm.alphas lm.model_type sgn mag) ∧
        ((lm.fit Xt).linearity_measure lg predict x sgn mag).isOk = true) := by
  constructor
  · intro lm lg predict x sgn mag hfit hm
    unfold LinearityMeasure.linearity_measure
    simp [hfit, hm]
  · intro lm Xt lg predict x sgn mag hm hshape hdim hmt
    have hmain : (lm.fit Xt).linearity_measure lg predict x sgn mag =
        _linearity_measure lg predict (ndRows x) none
          (some (_infer_features_range (ndRows Xt))) "gridSampling"
          lm.epsilon lm.nb_samples lm.res lm.alphas lm.model_type sgn mag := by
      unfold LinearityMeasure.linearity_measure LinearityMeasure.fit
      simp [hm, hshape]
    refine ⟨hmain, ?_⟩
    rw [hmain]
    unfold _linearity_measure
    have hdim2 : ¬ ((ndRows x).head?.getD ([] : Vec) = []) := by
      simpa using hdim
    rcases hmt with hmt | hmt <;> simp [hmt, hdim2, Except.isOk, Except.toBool]

/-- C8 witness: the two facade scenarios at concrete states. -/
theorem facade_fit_state_witness :
    ((LinearityMeasure.init "knn" (1 / 25) 10 100 none
        "classifier").linearity_measure (fun t => t) (fun batch => batch)
        ⟨[1, 2], [3, 7]⟩ [] [] =
      .error "Method knn cannot be used without calling fit().") ∧
    (((LinearityMeasure.init "gridSampling" (1 / 25) 1 1 none
          "classifier").fit ⟨[2, 2], [0, 0, 1, 1]⟩).linearity_measure
        (fun t => t) (fun batch => batch) ⟨[1, 2], [3, 7]⟩ [[[1], [1]]]
        [[[1], [1]]] =
      _linearity_measure (fun t => t) (fun batch => batch)
        (ndRows ⟨[1, 2], [3, 7]⟩) none
        (some (_infer_features_range (ndRows ⟨[2, 2], [0, 0, 1, 1]⟩)))
        "gridSampling" (1 / 25) 1 1 none "classifier" [[[1], [1]]]
        [[[1], [1]]]) ∧
    (((LinearityMeasure.init "gridSampling" (1 / 25) 1 1 none
          "classifier").fit ⟨[2, 2], [0, 0, 1, 1]⟩).linearity_measure
        (fun t => t) (fun batch => batch) ⟨[1, 2], [3, 7]⟩ [[[1], [1]]]
        [[[1], [1]]]).isOk = true :=
  ⟨facade_fit_state.1 _ _ _ _ _ _ rfl rfl,
    facade_fit_state.2 _ _ _ _ _ _ _ rfl rfl (by decide) (Or.inl rfl)⟩

/-- C9: the stateless grid entry point (1) fails with the precondition error
when both the training set and the explicit feature range are absent, before
any sampling or prediction work, and (2) when a training set is given and an
explicit range is absent, proceeds with the feature range inferred from the
training set by `_infer_features_range` (per-flattened-dimension min and
max). -/
theorem stateless_grid_range_inference :
    (∀ (lg : ℚ → ℚ) (predict : List Vec → List (List ℚ)) (x : List Vec)
        (epsilon : ℚ) (nb_samples res : ℕ) (alphas : Option (ℚ × ℚ))
        (model_type : String) (sgn mag : List (List (List ℤ))),
      linearity_measure lg predict x none "gridSampling" none epsilon
          nb_samples res alphas model_type sgn mag =
        .error "Method gridSampling requires features_range != None or X_train != None") ∧
    (∀ (lg : ℚ → ℚ) (predict : List Vec → List (List ℚ)) (x : List Vec)
        (Xt : List Vec) (epsilon : ℚ) (nb_samples res : ℕ)
        (alphas : Option (ℚ × ℚ)) (model_type : String)
        (sgn mag : List (List (List ℤ))),
      linearity_measure lg predict x none "gridSampling" (some Xt) epsilon
          nb_samples res alphas model_type sgn mag =
        _linearity_measure lg predict x none
          (some (_infer_features_range Xt)) "gridSampling" epsilon nb_samples
          res alphas model_type sgn mag) :=
  ⟨fun _ _ _ _ _ _ _ _ _ _ => rfl, fun _ _ _ _ _ _ _ _ _ _ _ => rfl⟩

end Alibi
